import Mathlib

/-!
Verification of the research-ideation / SOTA-comparison pipeline.

The development shallowly embeds the pipeline's pure logic:

* the bullet-list and normalization parsers of `app.py`
  (`WeaknessExtractor._extract_from_section`, `WeaknessNormalizer.normalize`);
* the weakness-fusion fallback of `WeaknessFusion.analyze`;
* the method-synthesis fallback of `MethodSynthesizer.synthesize`;
* the keyword fallback scorer of `services/semantic_engine.py`;
* the composite ranking of `services/sota_identifier.py`;
* the date filter of `services/api_wrapper.py`;
* the generation-call structure of both pipelines, with external services
  (the generation endpoint, `json.loads`, ArXiv, Semantic Scholar) modelled
  as oracles/parameters, and a call counter making the "how many service
  calls happened" questions provable.

Machine floats are modelled as exact rationals.  Python strings are
modelled as `List Char` (with `String` at the boundaries); the Python
string primitives used by the code (`strip`, `split`, `lower`,
`startswith`, `lstrip`, slicing, the `in` substring test) are re-implemented
below with structural recursion so that the kernel can evaluate them.
-/

namespace SotaPipeline

/-- Python `s.strip()`: remove leading and trailing whitespace. -/
def pyStrip (l : List Char) : List Char :=
  ((l.dropWhile Char.isWhitespace).reverse.dropWhile Char.isWhitespace).reverse

/-- Split a character list at every character satisfying `p`, keeping empty
pieces (the behaviour of Python `split` with an explicit separator). -/
def splitOnPred (p : Char → Bool) : List Char → List (List Char)
  | [] => [[]]
  | x :: xs =>
    match splitOnPred p xs with
    | [] => [[]]
    | h :: t => if p x then [] :: h :: t else (x :: h) :: t

/-- Python `s.split(sep)` for a one-character separator `sep`. -/
def splitOnChar (c : Char) (l : List Char) : List (List Char) :=
  splitOnPred (fun x => x = c) l

/-- Python `s.split()` with no argument: split on whitespace runs and drop
empty pieces. -/
def pySplitWS (l : List Char) : List (List Char) :=
  (splitOnPred Char.isWhitespace l).filter (fun w => w ≠ [])

/-- Python `sep in s`: does `sep` occur as a contiguous substring? -/
def containsSub (sep : List Char) : List Char → Bool
  | [] => sep.isEmpty
  | x :: xs => sep.isPrefixOf (x :: xs) || containsSub sep xs

/-- The suffix following the first occurrence of `sep` (empty when `sep`
does not occur). -/
def dropThroughSub (sep : List Char) : List Char → List Char
  | [] => []
  | x :: xs =>
    if sep.isPrefixOf (x :: xs) then (x :: xs).drop sep.length
    else dropThroughSub sep xs

/-- The prefix preceding the first occurrence of `sep` (the whole list when
`sep` does not occur). -/
def takeUntilSub (sep : List Char) : List Char → List Char
  | [] => []
  | x :: xs =>
    if sep.isPrefixOf (x :: xs) then [] else x :: takeUntilSub sep xs

/-- Python `s.lower()` (ASCII case folding, which is all the code relies
on). -/
def toLowerL (l : List Char) : List Char := l.map Char.toLower

def fenceJson : List Char := "```json".data
def fence : List Char := "```".data

/-- `response.strip()` followed by the code-fence stripping performed at
every JSON-producing stage of `app.py`:
`response.split('```json')[1].split('```')[0]` when a ```` ```json ````
fence is present, else the same with a plain ```` ``` ```` fence, else the
trimmed text unchanged.  (`split(sep)[1]` followed by `split('```')[0]`
equals "suffix after the first `sep`, truncated at the next ```` ``` ````",
because a second occurrence of `sep` is itself an occurrence of
```` ``` ````.) -/
def stripCodeFence (s : List Char) : List Char :=
  let t := pyStrip s
  if containsSub fenceJson t then takeUntilSub fence (dropThroughSub fenceJson t)
  else if containsSub fence t then takeUntilSub fence (dropThroughSub fence t)
  else t

/-- The characters accepted by `line.lstrip('-‚Ä¢*')` in `app.py` (the middle
three characters are the mojibake rendering of a bullet point that appears
literally in the source). -/
def bulletChars : List Char := ['-', '‚', 'Ä', '¢', '*']

/-- The three bullet-marker tests
`line.startswith('-') or line.startswith('‚Ä¢') or line.startswith('*')`. -/
def isBulletLine (line : List Char) : Bool :=
  ['-'].isPrefixOf line || "‚Ä¢".data.isPrefixOf line || ['*'].isPrefixOf line

/-- One iteration of the line loop of
`WeaknessExtractor._extract_from_section` (`app.py` lines 292-307): strip the
line; a bullet line (`-`, the mojibake bullet, or `*`) is stripped of all
leading marker characters, stripped again, and kept unless empty or equal
case-insensitively to `none`/`n/a`/`not applicable`; a line whose length
exceeds `2` and whose first character is a digit and second character `.` or
`)` loses its first two characters, is stripped, and kept unless empty or
equal case-insensitively to `none`/`n/a`.  Any other line produces no
item. -/
def parseWeaknessLineL (raw : List Char) : Option String :=
  let line := pyStrip raw
  if isBulletLine line then
    let w := pyStrip (line.dropWhile (fun c => c ∈ bulletChars))
    if w ≠ [] ∧ toLowerL w ∉ ["none".data, "n/a".data, "not applicable".data] then
      some (String.mk w)
    else none
  else if 2 < line.length ∧ (line.getD 0 ' ').isDigit ∧
      ((line.getD 1 ' ') = '.' ∨ (line.getD 1 ' ') = ')') then
    let w := pyStrip (line.drop 2)
    if w ≠ [] ∧ toLowerL w ∉ ["none".data, "n/a".data] then
      some (String.mk w)
    else none
  else none

/-- The bullet/numbered-list parser of
`WeaknessExtractor._extract_from_section`: split the generated text on
newlines and collect the items recognized by `parseWeaknessLineL`. -/
def weaknessItems (raw : String) : List String :=
  (splitOnChar '\n' raw.data).filterMap parseWeaknessLineL

/-- One iteration of the parsing loop of `WeaknessNormalizer.normalize`
(`app.py` lines 354-361): only bullet lines are recognized; the markers are
stripped, the remainder stripped, and the item kept only when its length
exceeds `10`. -/
def parseNormalizedLineL (raw : List Char) : Option String :=
  let line := pyStrip raw
  if isBulletLine line then
    let w := pyStrip (line.dropWhile (fun c => c ∈ bulletChars))
    if w ≠ [] ∧ 10 < w.length then some (String.mk w) else none
  else none

/-- The list parser used inside `WeaknessNormalizer.normalize`. -/
def normalizedItems (raw : String) : List String :=
  (splitOnChar '\n' raw.data).filterMap parseNormalizedLineL

example :
    weaknessItems "- Weak sample size\n* N/A\n1. Missing baseline\nrandom prose" =
      ["Weak sample size", "Missing baseline"] := by decide

example : weaknessItems "1. not applicable" = ["not applicable"] := by decide

example : weaknessItems "10. Missing baseline" = [] := by decide

example : normalizedItems "- short\n- a weakness that is long enough" =
    ["a weakness that is long enough"] := by decide

/-! ## Synthesis-pipeline data model (`app.py` dataclasses) -/

structure ParsedPaper where
  paper_id : String
  title : Option String
  abstract : Option String
  method : Option String
  experiments : Option String
  limitations : Option String
deriving DecidableEq

structure PaperWeaknesses where
  paper_id : String
  weaknesses : List String
deriving DecidableEq

structure WeaknessAnalysis where
  shared : List String
  paper_a_only : List String
  paper_b_only : List String
deriving DecidableEq

structure ProposedMethod where
  method_name : String
  core_idea : String
  components : List String
  addresses_weaknesses : String
deriving DecidableEq

/-! ## Abstract `json.loads` views

`json.loads` is Python-stdlib code external to this repository; each stage
reads the decoded object only through `data.get` with a default.  We model
the composition "`json.loads`, then the stage's field accesses" as one
abstract parser per stage, where `none` stands for a `JSONDecodeError`
(or, at the fusion stage's bare `except:`, any exception). -/

structure PaperJson where
  title : Option String
  abstract : Option String
  method : Option String
  experiments : Option String
  limitations : Option String

structure FusionJson where
  shared : Option (List String)
  paper_a_only : Option (List String)
  paper_b_only : Option (List String)

structure MethodJson where
  method_name : Option String
  core_idea : Option String
  components : Option (List String)
  addresses_weaknesses : Option String

structure AspectRow where
  paper_a : String
  paper_b : String
  proposed : String
deriving DecidableEq

structure JsonLoaders where
  paper : String → Option PaperJson
  fusion : String → Option FusionJson
  method : String → Option MethodJson
  comparison : String → Option (List (String × AspectRow))
  scores : String → Option (List ℚ)

/-! ## Stage post-processing (pure parts of each stage) -/

/-- `PaperParser.parse_pdf` after the generation call: clean the fenced
response, decode it, and on failure fall back to
`title="Unknown"`, `abstract=text[:500]`, `method=text[:2000]`
(`None` for both when the raw text is empty). -/
def parsePdfParse (jl : JsonLoaders) (resp : String) (text : String) (pid : String) :
    ParsedPaper :=
  match jl.paper (String.mk (stripCodeFence resp.data)) with
  | some d => ⟨pid, d.title, d.abstract, d.method, d.experiments, d.limitations⟩
  | none =>
    ⟨pid, some "Unknown",
      if text ≠ "" then some (String.mk (text.data.take 500)) else none,
      if text ≠ "" then some (String.mk (text.data.take 2000)) else none,
      none, none⟩

/-- The `except:` fallback of `WeaknessFusion.analyze` (`app.py` lines
413-421): exact-string set algebra `set(A) & set(B)`, `set(A) - set(B)`,
`set(B) - set(A)`.  Python materializes these sets in unspecified iteration
order; we fix the order of first occurrence (in `A` for the first two
components, in `B` for the third), which has the same elements. -/
def fusionFallback (A B : List String) : WeaknessAnalysis :=
  { shared := A.dedup.filter (fun w => w ∈ B)
    paper_a_only := A.dedup.filter (fun w => w ∉ B)
    paper_b_only := B.dedup.filter (fun w => w ∉ A) }

/-- `WeaknessFusion.analyze` after the generation call: decode the cleaned
JSON (`data.get(key, [])` per key) or fall back to `fusionFallback`. -/
def fusionParse (jl : JsonLoaders) (resp : String) (A B : List String) :
    WeaknessAnalysis :=
  match jl.fusion (String.mk (stripCodeFence resp.data)) with
  | some j => ⟨j.shared.getD [], j.paper_a_only.getD [], j.paper_b_only.getD []⟩
  | none => fusionFallback A B

/-- The fixed record returned by `MethodSynthesizer.synthesize` when parsing
fails (`app.py` lines 500-512). -/
def defaultProposedMethod : ProposedMethod :=
  { method_name := "Unified Adaptive Hybrid Framework"
    core_idea := "A method that combines the complementary strengths of both analyzed approaches while introducing novel components to address identified limitations."
    components :=
      [ "Adaptive Integration Module: Dynamically combines features from both paradigms"
      , "Scalability Enhancement Layer: Addresses computational efficiency concerns"
      , "Generalization Mechanism: Improves cross-domain applicability"
      , "Theoretical Grounding: Provides formal convergence guarantees" ]
    addresses_weaknesses := "This framework addresses the identified weaknesses through its modular design that allows for flexible adaptation to different scenarios while maintaining theoretical soundness." }

/-- `MethodSynthesizer.synthesize` after the generation call: on successful
decode, `data.get` with the listed defaults; on failure the fixed record. -/
def synthesizeParse (parsed : Option MethodJson) : ProposedMethod :=
  match parsed with
  | some d =>
    { method_name := d.method_name.getD "Unified Adaptive Framework"
      core_idea := d.core_idea.getD ""
      components := d.components.getD []
      addresses_weaknesses := d.addresses_weaknesses.getD "" }
  | none => defaultProposedMethod

/-- The five fixed comparison aspects of `ComparativeAnalyzer`. -/
def aspects : List String :=
  [ "Task Scalability", "Theoretical Foundation", "Computational Efficiency"
  , "Generalization Capability", "Practical Applicability" ]

/-- The parse-failure fallback table of
`ComparativeAnalyzer.generate_comparison`. -/
def defaultComparison : List (String × AspectRow) :=
  aspects.map fun a =>
    (a, { paper_a := "Analysis based on identified limitations shows room for improvement"
          paper_b := "Moderate performance with some documented constraints"
          proposed := "Designed to address identified gaps through hybrid approach" })

/-- `ComparativeAnalyzer.generate_comparison` after the generation call. -/
def comparisonParse (jl : JsonLoaders) (resp : String) : List (String × AspectRow) :=
  match jl.comparison (String.mk (stripCodeFence resp.data)) with
  | some t => t
  | none => defaultComparison

/-! ## Semantic engine (`services/semantic_engine.py`)

Candidate records are Python dicts; we model the fields the engine and the
ranker read.  A paper's publication date enters the final ranking only
through `(datetime.now() - pub).days`; since `datetime.now()` is ambient
wall-clock state, the model carries that day count directly (`none` when the
`published_date` field is missing or fails to parse). -/

structure Candidate where
  paper_id : Option String
  arxiv_id : Option String
  title : Option String
  abstract : Option String
  authors : List String
  days_old : Option Int
  categories : List String
  url : Option String
  pdf_url : Option String
  score : Option ℚ
  citation_count : Option Nat
  influential_citation_count : Option Nat
  reference_count : Option Nat
deriving DecidableEq

/-- The per-paper body of `SemanticEngine._keyword_score_papers` (lines
127-149): lower-case title and abstract, intersect distinct-word sets with
the distinct words of the lower-cased query, and combine
`min(1, (overlap/max)*0.7 + (titleOverlap/max)*0.3 + 0.1)`, or `0.5` when
the query has no words. -/
def keywordScoreOf (queryWords : Finset (List Char)) (p : Candidate) : ℚ :=
  let title := toLowerL (p.title.getD "").data
  let abstr := toLowerL (p.abstract.getD "").data
  let text := title ++ [' '] ++ abstr
  let textWords : Finset (List Char) := (pySplitWS text).toFinset
  let overlap : ℕ := (queryWords ∩ textWords).card
  let maxPossible : ℕ := queryWords.card
  let titleWords : Finset (List Char) := (pySplitWS title).toFinset
  let titleOverlap : ℕ := (queryWords ∩ titleWords).card
  if 0 < maxPossible then
    min 1 (((overlap : ℚ) / maxPossible) * 0.7 + ((titleOverlap : ℚ) / maxPossible) * 0.3 + 0.1)
  else 0.5

/-- Distinct words of the lower-cased query (`set(query.lower().split())`). -/
def queryWordSet (query : String) : Finset (List Char) :=
  (pySplitWS (toLowerL query.data)).toFinset

/-- `SemanticEngine._keyword_score_papers`: set every paper's `score`. -/
def keywordScorePapers (query : String) (papers : List Candidate) : List Candidate :=
  papers.map fun p => { p with score := some (keywordScoreOf (queryWordSet query) p) }

/-- `paper['score'] = scores[i]` for the first `len(scores)` papers, `0.5`
for the rest (`SemanticEngine._llm_score_papers`, lines 108-114). -/
def applyLlmScores (papers : List Candidate) (scores : List ℚ) : List Candidate :=
  ((papers.take scores.length).zipWith (fun p s => { p with score := some s }) scores)
    ++ (papers.drop scores.length).map (fun p => { p with score := some 0.5 })

/-! ## Composite ranking (`services/sota_identifier.py`) -/

/-- Python `round(x, n)`: round half to even (exact decimal model of the
float operation). -/
def roundHalfEven (x : ℚ) : ℤ :=
  if x - ⌊x⌋ < 1/2 then ⌊x⌋
  else if 1/2 < x - ⌊x⌋ then ⌊x⌋ + 1
  else if ⌊x⌋ % 2 = 0 then ⌊x⌋ else ⌊x⌋ + 1

def pyRound (x : ℚ) (ndigits : ℕ) : ℚ :=
  (roundHalfEven (x * 10 ^ ndigits) : ℚ) / 10 ^ ndigits

/-- `citation_score = min(1.0, citation_count / 500) if citation_count else 0`
(line 146), applied to `paper.get('citation_count', 0)`. -/
def citationScore (citation_count : ℕ) : ℚ :=
  if citation_count ≠ 0 then min 1 ((citation_count : ℚ) / 500) else 0

/-- The recency score of `_compute_final_ranking` (lines 149-164): `0.5`
when the date is missing or unparseable, else the piecewise day-count
decay. -/
def recencyScore (days_old : Option Int) : ℚ :=
  match days_old with
  | none => 0.5
  | some d =>
    if d < 180 then 1
    else if d < 365 then 0.9
    else if d < 730 then 0.7
    else max 0.3 (1 - (d : ℚ) / 3650)

/-- `final_score = relevance*0.50 + citation*0.25 + recency*0.25`
(lines 168-172). -/
def rawFinalScore (relevance citation recency : ℚ) : ℚ :=
  relevance * 0.50 + citation * 0.25 + recency * 0.25

structure PaperMetrics where
  citation_count : ℕ
  influential_citations : ℕ
  reference_count : ℕ
  recency_score : ℚ
  citation_score : ℚ
deriving DecidableEq

structure ScoredPaper where
  paper_id : Option String
  arxiv_id : Option String
  title : Option String
  abstract : String
  authors : List String
  days_old : Option Int
  categories : List String
  url : Option String
  pdf_url : Option String
  relevance_score : ℚ
  final_score : ℚ
  metrics : PaperMetrics
deriving DecidableEq

structure RankedPaper extends ScoredPaper where
  sota_rank : ℕ
deriving DecidableEq

/-- The per-paper output record built by `_compute_final_ranking`
(lines 140-194), including the 500-character abstract truncation, the
5-author truncation, and the rounding of the stored scores. -/
def buildScored (p : Candidate) : ScoredPaper :=
  let relevance : ℚ := p.score.getD 0.5
  let cc : ℕ := p.citation_count.getD 0
  let cs : ℚ := citationScore cc
  let rs : ℚ := recencyScore p.days_old
  let fs : ℚ := rawFinalScore relevance cs rs
  let a : String := p.abstract.getD ""
  { paper_id := p.paper_id
    arxiv_id := p.arxiv_id
    title := p.title
    abstract := if 500 < a.length then String.mk (a.data.take 500) ++ "..." else a
    authors := p.authors.take 5
    days_old := p.days_old
    categories := p.categories
    url := p.url
    pdf_url := p.pdf_url
    relevance_score := pyRound relevance 3
    final_score := pyRound fs 3
    metrics :=
      { citation_count := cc
        influential_citations := p.influential_citation_count.getD 0
        reference_count := p.reference_count.getD 0
        recency_score := pyRound rs 2
        citation_score := pyRound cs 2 } }

/-- The comparison used by
`scored_papers.sort(key=lambda x: x['final_score'], reverse=True)`: Python's
sort is stable, and a stable descending sort takes the earlier element
whenever `b.final_score ≤ a.final_score`. -/
def scoreDescLe (a b : ScoredPaper) : Bool := b.final_score ≤ a.final_score

def sortScored (l : List ScoredPaper) : List ScoredPaper := l.mergeSort scoreDescLe

/-- `for i, paper in enumerate(scored_papers[:top_k]): paper['sota_rank'] = i+1`. -/
def addRanks : ℕ → List ScoredPaper → List RankedPaper
  | _, [] => []
  | i, p :: ps => { toScoredPaper := p, sota_rank := i + 1 } :: addRanks (i + 1) ps

/-- `SOTAIdentifier._compute_final_ranking`: score every candidate, sort
descending by the stored final score, keep the first `top_k`, and assign
dense 1-based ranks. -/
def computeFinalRanking (papers : List Candidate) (topK : ℕ) : List RankedPaper :=
  addRanks 0 ((sortScored (papers.map buildScored)).take topK)

/-! ## Date filtering (`services/api_wrapper.py`) -/

/-- Decimal value of a digit string. -/
def natOfDigits (l : List Char) : ℕ :=
  l.foldl (fun n c => n * 10 + (c.toNat - 48)) 0

def daysInMonth (y m : ℕ) : ℕ :=
  if m = 2 then (if (y % 4 = 0 ∧ y % 100 ≠ 0) ∨ y % 400 = 0 then 29 else 28)
  else if m = 4 ∨ m = 6 ∨ m = 9 ∨ m = 11 then 30 else 31

/-- `datetime.strptime(s, '%Y-%m-%d')`: a 4-digit year, a dash, a 1-2 digit
month in 1..12, a dash, a 1-2 digit day valid for that month and (leap-aware)
year, year at least 1.  The result is encoded as `y*10000 + m*100 + d`,
whose order agrees with chronological order. -/
def strptimeYMD (s : String) : Option ℕ :=
  match splitOnChar '-' s.data with
  | [ys, ms, ds] =>
    if ys.length = 4 ∧ ys.all Char.isDigit ∧
        (ms.length = 1 ∨ ms.length = 2) ∧ ms.all Char.isDigit ∧
        (ds.length = 1 ∨ ds.length = 2) ∧ ds.all Char.isDigit then
      let y := natOfDigits ys
      let m := natOfDigits ms
      let d := natOfDigits ds
      if 1 ≤ y ∧ 1 ≤ m ∧ m ≤ 12 ∧ 1 ≤ d ∧ d ≤ daysInMonth y m then
        some (y * 10000 + m * 100 + d)
      else none
    else none
  | _ => none

/-- Candidate record as parsed from the ArXiv feed (the fields
`_filter_by_date` touches, plus identity). -/
structure ArxivPaper where
  paper_id : String
  title : String
  abstract : String
  published_date : Option String
deriving DecidableEq

def checkEnd (endD : Option String) (pub : ℕ) : Bool :=
  match endD with
  | none => true
  | some es =>
    match strptimeYMD es with
    | none => true
    | some en => pub ≤ en

/-- The per-paper body of `ArxivWrapper._filter_by_date` (lines 177-204):
skip papers without a `published_date`; retain papers whose date (or whose
requested bound) fails to parse; otherwise drop papers strictly before the
start bound or strictly after the end bound. -/
def keepPaper (startD endD : Option String) (p : ArxivPaper) : Bool :=
  match p.published_date with
  | none => false
  | some ds =>
    match strptimeYMD ds with
    | none => true
    | some pub =>
      match startD with
      | none => checkEnd endD pub
      | some ss =>
        match strptimeYMD ss with
        | none => true
        | some st => if pub < st then false else checkEnd endD pub

def filterByDate (papers : List ArxivPaper) (startD endD : Option String) :
    List ArxivPaper :=
  papers.filter (keepPaper startD endD)

/-! ## Generation-call monad

`GroqClient.chat_completion` (and the direct `requests.post` of the semantic
engine) either returns the generated text or raises; we model the remote
service as an oracle indexed by the number of calls already made, and thread
a call counter so that "how many generation calls were made" is provable.
An uncaught error aborts the computation with the counter preserved. -/

structure GenError where
  msg : String
deriving DecidableEq

/-- Deep-embedded generation requests: one constructor per prompt-building
site of the source.  The English prompt template is presentation; each
constructor carries the data interpolated into it. -/
inductive GenRequest
  | parsePdf (text : String)
  | extractWeaknesses (sectionName : String) (text : String)
  | normalize (weaknesses : List String)
  | fusion (a b : List String)
  | synthesize (analysis : WeaknessAnalysis) (titleA titleB : String)
  | comparison (titleA titleB : Option String) (wa wb : List String)
      (proposed : ProposedMethod)
  | scoreRelevance (query : String) (titles : List (Option String))
  | explainRelevance (query : String) (title : Option String) (abstract : String)

def GenOracle := ℕ → GenRequest → Except GenError String

def GenM (α : Type) : Type := ℕ → Except GenError α × ℕ

def GenM.pure (a : α) : GenM α := fun n => (.ok a, n)

def GenM.bind (x : GenM α) (f : α → GenM β) : GenM β := fun n =>
  match x n with
  | (.ok a, n') => f a n'
  | (.error e, n') => (.error e, n')

instance : Monad GenM where
  pure := GenM.pure
  bind := GenM.bind

/-- A Python `try/except` around a generation-calling block. -/
def GenM.catchE (x : GenM α) (h : GenError → GenM α) : GenM α := fun n =>
  match x n with
  | (.ok a, n') => (.ok a, n')
  | (.error e, n') => h e n'

def callGen (o : GenOracle) (req : GenRequest) : GenM String := fun n =>
  (o n req, n + 1)

/-! ## Synthesis pipeline (`ResearchPipeline.process`) -/

def parsePdfM (o : GenOracle) (jl : JsonLoaders) (text pid : String) :
    GenM ParsedPaper := do
  let resp ← callGen o (.parsePdf text)
  GenM.pure (parsePdfParse jl resp text pid)

def extractFromSectionM (o : GenOracle) (name text : String) :
    GenM (List String) := do
  let resp ← callGen o (.extractWeaknesses name text)
  GenM.pure (weaknessItems resp)

/-- One entry of the section loop of
`WeaknessExtractor.extract_from_paper`: sections that are absent or at most
50 characters long are skipped. -/
def sectionPassM (o : GenOracle) (name : String) (sec : Option String) :
    GenM (List String) :=
  match sec with
  | some t => if 50 < t.length then extractFromSectionM o name t else GenM.pure []
  | none => GenM.pure []

/-- `WeaknessExtractor.extract_from_paper`: mine the four sections in order
(method, experiments, limitations, abstract); if nothing was found and a
non-empty abstract exists, force one extra pass over the abstract. -/
def extractFromPaperM (o : GenOracle) (p : ParsedPaper) : GenM PaperWeaknesses := do
  let w1 ← sectionPassM o "method" p.method
  let w2 ← sectionPassM o "experiments" p.experiments
  let w3 ← sectionPassM o "limitations" p.limitations
  let w4 ← sectionPassM o "abstract" p.abstract
  let allW := w1 ++ w2 ++ w3 ++ w4
  match p.abstract with
  | some ab =>
    if allW = [] ∧ ab ≠ "" then do
      let w5 ← extractFromSectionM o "paper_content" ab
      GenM.pure ⟨p.paper_id, allW ++ w5⟩
    else GenM.pure ⟨p.paper_id, allW⟩
  | none => GenM.pure ⟨p.paper_id, allW⟩

/-- `WeaknessNormalizer.normalize`: empty input returns immediately with no
generation call; otherwise one call, parsed by `normalizedItems`. -/
def normalizeM (o : GenOracle) (weaknesses : List String) : GenM (List String) :=
  if weaknesses = [] then GenM.pure []
  else do
    let resp ← callGen o (.normalize weaknesses)
    GenM.pure (normalizedItems resp)

def analyzeFusionM (o : GenOracle) (jl : JsonLoaders) (A B : List String) :
    GenM WeaknessAnalysis := do
  let resp ← callGen o (.fusion A B)
  GenM.pure (fusionParse jl resp A B)

def synthesizeM (o : GenOracle) (jl : JsonLoaders) (analysis : WeaknessAnalysis)
    (titleA titleB : String) : GenM ProposedMethod := do
  let resp ← callGen o (.synthesize analysis titleA titleB)
  GenM.pure (synthesizeParse (jl.method (String.mk (stripCodeFence resp.data))))

def generateComparisonM (o : GenOracle) (jl : JsonLoaders) (pa pb : ParsedPaper)
    (wa wb : List String) (proposed : ProposedMethod) :
    GenM (List (String × AspectRow)) := do
  let resp ← callGen o (.comparison pa.title pb.title wa wb proposed)
  GenM.pure (comparisonParse jl resp)

/-- Python `paper.title or "Paper A"`: the default replaces both a missing
and an empty title. -/
def titleOr (t : Option String) (d : String) : String :=
  match t with
  | some s => if s ≠ "" then s else d
  | none => d

structure PipelineResult where
  paper_a : ParsedPaper
  paper_b : ParsedPaper
  weaknesses_a : List String
  weaknesses_b : List String
  weakness_analysis : WeaknessAnalysis
  proposed_method : ProposedMethod
  comparison_table : List (String × AspectRow)

/-- `ResearchPipeline.process`: the six stages in sequence.  No stage
catches an error from the generation client, so an error anywhere aborts the
run and propagates. -/
def process (o : GenOracle) (jl : JsonLoaders) (textA textB : String) :
    GenM PipelineResult := do
  let paperA ← parsePdfM o jl textA "A"
  let paperB ← parsePdfM o jl textB "B"
  let wA ← extractFromPaperM o paperA
  let wB ← extractFromPaperM o paperB
  let nA ← normalizeM o wA.weaknesses
  let nB ← normalizeM o wB.weaknesses
  let analysis ← analyzeFusionM o jl nA nB
  let proposed ← synthesizeM o jl analysis (titleOr paperA.title "Paper A")
      (titleOr paperB.title "Paper B")
  let comparison ← generateComparisonM o jl paperA paperB nA nB proposed
  GenM.pure
    { paper_a := paperA, paper_b := paperB, weaknesses_a := nA, weaknesses_b := nB
      weakness_analysis := analysis, proposed_method := proposed
      comparison_table := comparison }

/-! ## Semantic-engine scoring with generation failure handling -/

/-- `result.replace('```json', '').replace('```', '').strip()`
(semantic_engine.py line 105): delete all occurrences of a separator,
scanning left to right (fuel-indexed so the kernel can evaluate it). -/
def replaceSubAux (sep : List Char) : ℕ → List Char → List Char
  | _, [] => []
  | 0, l => l
  | fuel + 1, x :: xs =>
    if sep.isPrefixOf (x :: xs) ∧ sep ≠ [] then
      replaceSubAux sep fuel ((x :: xs).drop sep.length)
    else x :: replaceSubAux sep fuel xs

def replaceSub (sep l : List Char) : List Char := replaceSubAux sep l.length l

def cleanScoresText (s : String) : String :=
  String.mk (pyStrip (replaceSub fence (replaceSub fenceJson s.data)))

/-- `SemanticEngine._llm_score_papers`: one generation call over the first
15 titles; a JSON decode failure falls back to keyword scoring. -/
def llmScorePapersM (o : GenOracle) (jl : JsonLoaders) (query : String)
    (papers : List Candidate) : GenM (List Candidate) := do
  let resp ← callGen o (.scoreRelevance query ((papers.take 15).map (·.title)))
  match jl.scores (cleanScoresText resp) with
  | some scores => GenM.pure (applyLlmScores papers scores)
  | none => GenM.pure (keywordScorePapers query papers)

/-- `SemanticEngine._score_papers` (lines 46-57): with an API key, try LLM
scoring and catch ANY failure (including a generation/transport error),
falling back to the keyword scorer; without a key, keyword scoring
directly. -/
def scorePapersM (o : GenOracle) (jl : JsonLoaders) (apiKey query : String)
    (papers : List Candidate) : GenM (List Candidate) :=
  if apiKey ≠ "" then
    GenM.catchE (llmScorePapersM o jl query papers)
      (fun _ => GenM.pure (keywordScorePapers query papers))
  else GenM.pure (keywordScorePapers query papers)

/-- `SemanticEngine.rank_papers`. -/
def rankPapersM (o : GenOracle) (jl : JsonLoaders) (apiKey query : String)
    (papers : List Candidate) (topK : ℕ) : GenM (List Candidate) :=
  if papers = [] then GenM.pure []
  else if papers.length ≤ topK then scorePapersM o jl apiKey query papers
  else do
    let scored ← scorePapersM o jl apiKey query papers
    GenM.pure ((scored.mergeSort (fun a b => b.score.getD 0 ≤ a.score.getD 0)).take topK)

/-! ## SOTA orchestrator (`SOTAIdentifier.identify_sota`)

The orchestrator's collaborators (ArXiv search, the semantic ranking engine,
Semantic Scholar enrichment, explanation generation) are modelled as service
oracles, and every call site appends a trace event, so "this run performed
no ranking/enrichment/explanation call" is provable.  Within the SOTA
pipeline every service failure is caught internally (search returns `[]`,
ranking and explanation fall back), so the services are total functions. -/

inductive SvcCall
  | arxivSearch
  | rankPapers
  | enrichPapers
  | computeFinalRanking
  | explain
deriving DecidableEq

structure SotaSvc where
  search : String → Option String → Option String → ℕ → List Candidate
  rank : String → List Candidate → ℕ → List Candidate
  enrich : List Candidate → List Candidate
  explain : String → RankedPaper → String

structure SearchParams where
  max_results : ℕ
  start_date : Option String
  end_date : Option String
deriving DecidableEq

structure ReasonedPaper extends RankedPaper where
  relevance_reason : String
deriving DecidableEq

structure SotaResult where
  topic : String
  total_found : ℕ
  top_k : ℕ
  sota_papers : List ReasonedPaper
  search_params : SearchParams
deriving DecidableEq

/-- `SOTAIdentifier.identify_sota` (lines 25-130): search, early-return on
an empty candidate list, otherwise rank, optionally enrich, compute the
final ranking and attach explanations. -/
def identifySota (svc : SotaSvc) (topic : String) (maxResults topK : ℕ)
    (startDate endDate : Option String) (includeMetrics : Bool) :
    SotaResult × List SvcCall :=
  let arxivResults := svc.search topic startDate endDate maxResults
  let base : SotaResult :=
    { topic := topic, total_found := 0, top_k := topK, sota_papers := []
      search_params := ⟨maxResults, startDate, endDate⟩ }
  if arxivResults = [] then (base, [.arxivSearch])
  else
    let ranked := svc.rank topic arxivResults (min (topK * 2) arxivResults.length)
    let enriched := if includeMetrics then svc.enrich (ranked.take (topK * 2)) else ranked
    let finalPapers := computeFinalRanking enriched topK
    let withReasons := finalPapers.map fun p =>
      ({ toRankedPaper := p, relevance_reason := svc.explain topic p } : ReasonedPaper)
    ({ base with total_found := arxivResults.length, sota_papers := withReasons },
      [.arxivSearch, .rankPapers]
        ++ (if includeMetrics then [.enrichPapers] else [])
        ++ [.computeFinalRanking] ++ finalPapers.map (fun _ => .explain))

/-! ## Theorems -/

/-- C1: when decoding the fusion stage's generated JSON fails,
`WeaknessFusion.analyze` returns the exact-string set-algebra partition:
`shared = A ∩ B`, `paper_a_only = A \ B`, `paper_b_only = B \ A` as sets of
strings; the three components are pairwise disjoint and their union is
`A ∪ B`. -/
theorem fusion_fallback_partition (jl : JsonLoaders) (resp : String)
    (A B : List String)
    (h : jl.fusion (String.mk (stripCodeFence resp.data)) = none) :
    fusionParse jl resp A B = fusionFallback A B ∧
    (fusionFallback A B).shared.toFinset = A.toFinset ∩ B.toFinset ∧
    (fusionFallback A B).paper_a_only.toFinset = A.toFinset \ B.toFinset ∧
    (fusionFallback A B).paper_b_only.toFinset = B.toFinset \ A.toFinset ∧
    Disjoint (fusionFallback A B).shared.toFinset
      (fusionFallback A B).paper_a_only.toFinset ∧
    Disjoint (fusionFallback A B).shared.toFinset
      (fusionFallback A B).paper_b_only.toFinset ∧
    Disjoint (fusionFallback A B).paper_a_only.toFinset
      (fusionFallback A B).paper_b_only.toFinset ∧
    (fusionFallback A B).shared.toFinset ∪
      (fusionFallback A B).paper_a_only.toFinset ∪
      (fusionFallback A B).paper_b_only.toFinset = A.toFinset ∪ B.toFinset := by
  have hsh : (fusionFallback A B).shared.toFinset = A.toFinset ∩ B.toFinset := by
    ext w
    simp [fusionFallback, List.mem_filter]
  have hao : (fusionFallback A B).paper_a_only.toFinset = A.toFinset \ B.toFinset := by
    ext w
    simp [fusionFallback, List.mem_filter]
  have hbo : (fusionFallback A B).paper_b_only.toFinset = B.toFinset \ A.toFinset := by
    ext w
    simp [fusionFallback, List.mem_filter]
  refine ⟨by simp [fusionParse, h], hsh, hao, hbo, ?_, ?_, ?_, ?_⟩
  · rw [hsh, hao]
    rw [Finset.disjoint_left]
    intro w hw hw'
    simp only [Finset.mem_inter, Finset.mem_sdiff] at hw hw'
    exact hw'.2 hw.2
  · rw [hsh, hbo]
    rw [Finset.disjoint_left]
    intro w hw hw'
    simp only [Finset.mem_inter, Finset.mem_sdiff] at hw hw'
    exact hw'.2 hw.1
  · rw [hao, hbo]
    rw [Finset.disjoint_left]
    intro w hw hw'
    simp only [Finset.mem_sdiff] at hw hw'
    exact hw'.2 hw.1
  · rw [hsh, hao, hbo]
    ext w
    simp only [Finset.mem_union, Finset.mem_inter, Finset.mem_sdiff]
    tauto

/-- Witness for `fusion_fallback_partition` at a concrete failing decode. -/
theorem fusion_fallback_partition_witness :
    fusionParse ⟨fun _ => none, fun _ => none, fun _ => none, fun _ => none,
        fun _ => none⟩ "no json here" ["a", "b"] ["b", "c"] =
      fusionFallback ["a", "b"] ["b", "c"] ∧
    (fusionFallback ["a", "b"] ["b", "c"]).shared.toFinset =
      (["a", "b"] : List String).toFinset ∩ (["b", "c"] : List String).toFinset ∧
    (fusionFallback ["a", "b"] ["b", "c"]).paper_a_only.toFinset =
      (["a", "b"] : List String).toFinset \ (["b", "c"] : List String).toFinset ∧
    (fusionFallback ["a", "b"] ["b", "c"]).paper_b_only.toFinset =
      (["b", "c"] : List String).toFinset \ (["a", "b"] : List String).toFinset ∧
    Disjoint (fusionFallback ["a", "b"] ["b", "c"]).shared.toFinset
      (fusionFallback ["a", "b"] ["b", "c"]).paper_a_only.toFinset ∧
    Disjoint (fusionFallback ["a", "b"] ["b", "c"]).shared.toFinset
      (fusionFallback ["a", "b"] ["b", "c"]).paper_b_only.toFinset ∧
    Disjoint (fusionFallback ["a", "b"] ["b", "c"]).paper_a_only.toFinset
      (fusionFallback ["a", "b"] ["b", "c"]).paper_b_only.toFinset ∧
    (fusionFallback ["a", "b"] ["b", "c"]).shared.toFinset ∪
      (fusionFallback ["a", "b"] ["b", "c"]).paper_a_only.toFinset ∪
      (fusionFallback ["a", "b"] ["b", "c"]).paper_b_only.toFinset =
      (["a", "b"] : List String).toFinset ∪ (["b", "c"] : List String).toFinset :=
  fusion_fallback_partition _ "no json here" ["a", "b"] ["b", "c"] rfl

/-- C5 counterexample: the claim says items equal case-insensitively to
"none"/"n/a"/"not applicable" are discarded and that a line starting with a
numbered-list marker `N.` is recognized.  But the numbered branch of
`_extract_from_section` checks only `['none', 'n/a']`, so
`"1. not applicable"` yields the item `"not applicable"`; and the numbered
branch requires the second character to be `.`/`)`, so the two-digit marker
in `"10. Missing baseline"` is not recognized at all. -/
theorem extract_bullet_counterexample :
    weaknessItems "1. not applicable" = ["not applicable"] ∧
    weaknessItems "10. Missing baseline" = [] := by decide

/-- C5 amended: the four-line example parses exactly as claimed; the marker
is stripped and the remainder trimmed; items that are empty or equal
case-insensitively to "none"/"n/a" are discarded on both branches (the
bullet branch additionally discards "not applicable"; the numbered branch
keeps it, and recognizes only single-digit `N.`/`N)` markers). -/
theorem extract_bullet_amended :
    (weaknessItems "- Weak sample size\n* N/A\n1. Missing baseline\nrandom prose" =
      ["Weak sample size", "Missing baseline"]) ∧
    (∀ raw w, w ∈ weaknessItems raw →
      w.data ≠ [] ∧ toLowerL w.data ≠ "none".data ∧ toLowerL w.data ≠ "n/a".data) ∧
    (∀ line w, parseWeaknessLineL line = some w → isBulletLine (pyStrip line) →
      toLowerL w.data ≠ "not applicable".data) := by
  refine ⟨by decide, ?_, ?_⟩
  · intro raw w hw
    unfold weaknessItems at hw
    rw [List.mem_filterMap] at hw
    obtain ⟨line, -, hline⟩ := hw
    unfold parseWeaknessLineL at hline
    simp only [] at hline
    split at hline
    · split at hline
      · rename_i hcond
        obtain ⟨hne, hnotin⟩ := hcond
        simp only [List.mem_cons, List.not_mem_nil, or_false, not_or] at hnotin
        cases hline
        exact ⟨hne, hnotin.1, hnotin.2.1⟩
      · exact absurd hline (by simp)
    · split at hline
      · split at hline
        · rename_i hcond
          obtain ⟨hne, hnotin⟩ := hcond
          simp only [List.mem_cons, List.not_mem_nil, or_false, not_or] at hnotin
          cases hline
          exact ⟨hne, hnotin.1, hnotin.2⟩
        · exact absurd hline (by simp)
      · exact absurd hline (by simp)
  · intro line w hline hb
    unfold parseWeaknessLineL at hline
    simp only [] at hline
    rw [if_pos hb] at hline
    split at hline
    · rename_i hcond
      obtain ⟨hne, hnotin⟩ := hcond
      simp only [List.mem_cons, List.not_mem_nil, or_false, not_or] at hnotin
      cases hline
      exact hnotin.2.2
    · exact absurd hline (by simp)

/-- Witness for `extract_bullet_amended` at a concrete parsed item. -/
theorem extract_bullet_amended_witness :
    ("Weak sample size".data ≠ [] ∧
      toLowerL "Weak sample size".data ≠ "none".data ∧
      toLowerL "Weak sample size".data ≠ "n/a".data) ∧
    toLowerL "Weak sample size".data ≠ "not applicable".data :=
  ⟨extract_bullet_amended.2.1 "- Weak sample size" "Weak sample size" (by decide),
    extract_bullet_amended.2.2 "- Weak sample size".data "Weak sample size"
      (by decide) (by decide)⟩

/-- C7 counterexample: the claim says every `ProposedMethod` returned by
`synthesize` has a non-empty `method_name`, but when the generated JSON
decodes successfully and carries an explicitly empty `method_name` (e.g.
the service returns `{"method_name": ""}`), `data.get('method_name', ...)`
passes the empty string through. -/
theorem synthesize_empty_name_counterexample :
    (synthesizeParse (some ⟨some "", none, none, none⟩)).method_name = "" := by
  decide

/-- C7 amended: on decode failure `synthesize` returns the fixed, fully
populated default record (non-empty name, non-empty texts, exactly four
components); when the decode succeeds but omits `method_name`, the non-empty
default name is used.  Only an explicitly empty generated `method_name` can
produce an empty name. -/
theorem synthesize_fallback_amended :
    synthesizeParse none = defaultProposedMethod ∧
    defaultProposedMethod.method_name ≠ "" ∧
    defaultProposedMethod.core_idea ≠ "" ∧
    defaultProposedMethod.addresses_weaknesses ≠ "" ∧
    defaultProposedMethod.components.length = 4 ∧
    (∀ c ∈ defaultProposedMethod.components, c ≠ "") ∧
    ∀ d : MethodJson, d.method_name = none →
      (synthesizeParse (some d)).method_name = "Unified Adaptive Framework" := by
  refine ⟨rfl, by decide, by decide, by decide, by decide, by decide, ?_⟩
  intro d hd
  simp [synthesizeParse, hd]

/-- Witness for `synthesize_fallback_amended` at a concrete record without
a `method_name`. -/
theorem synthesize_fallback_amended_witness :
    (synthesizeParse (some ⟨none, some "idea", none, none⟩)).method_name =
      "Unified Adaptive Framework" :=
  synthesize_fallback_amended.2.2.2.2.2.2 ⟨none, some "idea", none, none⟩ rfl

/-- C9: `WeaknessNormalizer.normalize` returns `[]` on empty input without
making a generation call (the counter is unchanged and the result is `ok`),
and every item parsed from the generated text of a non-empty run has length
at least 11 (items of length ≤ 10 are discarded). -/
theorem normalize_empty_and_min_length (o : GenOracle) (n : ℕ) :
    normalizeM o [] n = (.ok [], n) ∧
    ∀ raw w, w ∈ normalizedItems raw → 11 ≤ w.length := by
  constructor
  · simp [normalizeM, GenM.pure]
  · intro raw w hw
    unfold normalizedItems at hw
    rw [List.mem_filterMap] at hw
    obtain ⟨line, -, hline⟩ := hw
    unfold parseNormalizedLineL at hline
    simp only [] at hline
    split at hline
    · split at hline
      · rename_i hcond
        cases hline
        exact hcond.2
      · exact absurd hline (by simp)
    · exact absurd hline (by simp)

/-- Witness for `normalize_empty_and_min_length` at a concrete oracle and a
concrete parsed item. -/
theorem normalize_empty_and_min_length_witness :
    normalizeM (fun _ _ => .ok "- ok") [] 0 = (.ok [], 0) ∧
    11 ≤ ("a weakness that is long enough" : String).length :=
  ⟨(normalize_empty_and_min_length (fun _ _ => .ok "- ok") 0).1,
    (normalize_empty_and_min_length (fun _ _ => .ok "- ok") 0).2
      "- short\n- a weakness that is long enough" "a weakness that is long enough"
      (by decide)⟩

theorem splitOnPred_ne_nil (p : Char → Bool) (l : List Char) :
    splitOnPred p l ≠ [] := by
  cases l with
  | nil => simp [splitOnPred]
  | cons x xs =>
    simp only [splitOnPred]
    split
    · simp
    · split <;> simp

theorem splitOnPred_append_sep (p : Char → Bool) (c : Char) (hc : p c = true)
    (xs ys : List Char) :
    splitOnPred p (xs ++ c :: ys) = splitOnPred p xs ++ splitOnPred p ys := by
  induction xs with
  | nil =>
    rw [List.nil_append]
    rw [show splitOnPred p (c :: ys) =
        (match splitOnPred p ys with
          | [] => [[]]
          | h :: t => if p c then [] :: h :: t else (c :: h) :: t) from rfl]
    rcases h : splitOnPred p ys with _ | ⟨h', t⟩
    · exact absurd h (splitOnPred_ne_nil p ys)
    · dsimp only
      rw [if_pos hc]
      simp [splitOnPred]
  | cons x xs ih =>
    rw [show splitOnPred p (x :: xs ++ c :: ys) =
        (match splitOnPred p (xs ++ c :: ys) with
          | [] => [[]]
          | h :: t => if p x then [] :: h :: t else (x :: h) :: t) from rfl]
    rw [show splitOnPred p (x :: xs) =
        (match splitOnPred p xs with
          | [] => [[]]
          | h :: t => if p x then [] :: h :: t else (x :: h) :: t) from rfl]
    rw [ih]
    rcases h : splitOnPred p xs with _ | ⟨h', t⟩
    · exact absurd h (splitOnPred_ne_nil p xs)
    · rw [List.cons_append]
      dsimp only
      cases hpx : p x <;> simp [hpx]

theorem pySplitWS_append_space (xs ys : List Char) :
    pySplitWS (xs ++ ' ' :: ys) = pySplitWS xs ++ pySplitWS ys := by
  unfold pySplitWS
  rw [splitOnPred_append_sep Char.isWhitespace ' ' (by decide), List.filter_append]

/-- The keyword-overlap fallback score exactly as the specification words
it (claim-side definition, compared with the code-side `keywordScoreOf`):
`min(1, 0.7×(topicWordOverlap/topicWordCount) +
0.3×(titleWordOverlap/topicWordCount) + 0.1)`, where `topicWordOverlap`
intersects the distinct lower-cased topic words with the distinct words of
title plus abstract, and `0.5` when the topic has no distinct words. -/
def keywordScoreSpec (query : String) (p : Candidate) : ℚ :=
  let topicWords := (pySplitWS (toLowerL query.data)).toFinset
  let topicWordCount : ℕ := topicWords.card
  let titleWords := (pySplitWS (toLowerL (p.title.getD "").data)).toFinset
  let abstractWords := (pySplitWS (toLowerL (p.abstract.getD "").data)).toFinset
  let topicWordOverlap : ℕ := (topicWords ∩ (titleWords ∪ abstractWords)).card
  let titleWordOverlap : ℕ := (topicWords ∩ titleWords).card
  if topicWordCount = 0 then 0.5
  else
    min 1 (0.7 * ((topicWordOverlap : ℚ) / topicWordCount) +
      0.3 * ((titleWordOverlap : ℚ) / topicWordCount) + 0.1)

theorem keywordScoreOf_eq_spec (query : String) (p : Candidate) :
    keywordScoreOf (queryWordSet query) p = keywordScoreSpec query p := by
  unfold keywordScoreOf keywordScoreSpec queryWordSet
  simp only [List.append_assoc, List.singleton_append]
  simp only [pySplitWS_append_space, List.toFinset_append]
  by_cases h : ((pySplitWS (toLowerL query.data)).toFinset).card = 0
  · simp [h]
  · rw [if_neg h, if_pos (Nat.pos_of_ne_zero h)]
    ring_nf

/-- C6: under the keyword-overlap fallback, every paper's score is exactly
the formula stated in the specification (with the `0.5` uniform default when
the topic has no distinct words). -/
theorem keyword_fallback_score (query : String) (papers : List Candidate) :
    keywordScorePapers query papers =
      papers.map fun p => { p with score := some (keywordScoreSpec query p) } := by
  unfold keywordScorePapers
  have hfun : (fun p : Candidate =>
      { p with score := some (keywordScoreOf (queryWordSet query) p) }) =
      (fun p : Candidate => { p with score := some (keywordScoreSpec query p) }) :=
    funext fun p => by rw [keywordScoreOf_eq_spec]
  rw [hfun]

/-- C2: the composite-ranking sub-scores take the specified exact values:
`citationScore = min(1, citationCount/500)` (`1` at `500`, `0` at zero or
absent counts), the recency score is the stated piecewise function of the
paper's age in days (`0.5` when the date is missing or unparseable), and
the final score is `0.50×relevance + 0.25×citation + 0.25×recency`. -/
theorem composite_subscores :
    (∀ c : ℕ, citationScore c = min 1 ((c : ℚ) / 500)) ∧
    citationScore 500 = 1 ∧
    citationScore 0 = 0 ∧
    citationScore ((none : Option ℕ).getD 0) = 0 ∧
    recencyScore (some 179) = 1 ∧
    recencyScore (some 200) = 0.9 ∧
    (∀ d : ℤ, d < 180 → recencyScore (some d) = 1) ∧
    (∀ d : ℤ, 180 ≤ d → d < 365 → recencyScore (some d) = 0.9) ∧
    (∀ d : ℤ, 365 ≤ d → d < 730 → recencyScore (some d) = 0.7) ∧
    (∀ d : ℤ, 730 ≤ d → recencyScore (some d) = max 0.3 (1 - (d : ℚ) / 3650)) ∧
    recencyScore none = 0.5 ∧
    (∀ r c q : ℚ, rawFinalScore r c q = 0.50 * r + 0.25 * c + 0.25 * q) := by
  refine ⟨?_, by norm_num [citationScore], by norm_num [citationScore],
    by norm_num [citationScore], by norm_num [recencyScore],
    by norm_num [recencyScore], ?_, ?_, ?_, ?_, by norm_num [recencyScore], ?_⟩
  · intro c
    by_cases hc : c = 0
    · subst hc
      norm_num [citationScore]
    · simp [citationScore, hc]
  · intro d hd
    simp [recencyScore, hd]
  · intro d h1 h2
    simp only [recencyScore]
    rw [if_neg (by omega), if_pos h2]
  · intro d h1 h2
    simp only [recencyScore]
    rw [if_neg (by omega), if_neg (by omega), if_pos h2]
  · intro d h1
    simp only [recencyScore]
    rw [if_neg (by omega), if_neg (by omega), if_neg (by omega)]
  · intro r c q
    rw [rawFinalScore]
    ring

/-- Witness for `composite_subscores` at concrete day counts. -/
theorem composite_subscores_witness :
    citationScore 250 = min 1 ((250 : ℚ) / 500) ∧
    recencyScore (some 100) = 1 ∧
    recencyScore (some 300) = 0.9 ∧
    recencyScore (some 400) = 0.7 ∧
    recencyScore (some 1000) = max 0.3 (1 - (1000 : ℚ) / 3650) ∧
    rawFinalScore 0.5 0 0.5 = 0.50 * 0.5 + 0.25 * 0 + 0.25 * 0.5 :=
  ⟨composite_subscores.1 250,
    composite_subscores.2.2.2.2.2.2.1 100 (by decide),
    composite_subscores.2.2.2.2.2.2.2.1 300 (by decide) (by decide),
    composite_subscores.2.2.2.2.2.2.2.2.1 400 (by decide) (by decide),
    composite_subscores.2.2.2.2.2.2.2.2.2.1 1000 (by decide),
    composite_subscores.2.2.2.2.2.2.2.2.2.2.2 0.5 0 0.5⟩

/-- The claim-side date-window predicate: with a parsed `[start, end]`
window, keep exactly the papers whose parsed published date lies in the
inclusive window; retain papers whose date field is present but
unparseable; discard papers with no date. -/
def keepPaperSpec (st en : ℕ) (p : ArxivPaper) : Bool :=
  match p.published_date with
  | none => false
  | some ds =>
    match strptimeYMD ds with
    | none => true
    | some d => st ≤ d ∧ d ≤ en

/-- C8: when both window bounds are supplied and parse, the date filter
keeps exactly the papers given by `keepPaperSpec`: inclusive window for
parseable dates, fail-open for unparseable dates, discard when the date is
absent. -/
theorem date_filter_window (papers : List ArxivPaper) (ss es : String)
    (st en : ℕ) (hs : strptimeYMD ss = some st) (he : strptimeYMD es = some en) :
    filterByDate papers (some ss) (some es) = papers.filter (keepPaperSpec st en) := by
  unfold filterByDate
  apply List.filter_congr
  intro p _
  cases hpd : p.published_date with
  | none => simp [keepPaper, keepPaperSpec, hpd]
  | some ds =>
    cases hparse : strptimeYMD ds with
    | none => simp [keepPaper, keepPaperSpec, hpd, hparse]
    | some pub =>
      simp only [keepPaper, keepPaperSpec, checkEnd, hpd, hparse, hs, he]
      by_cases hlt : pub < st
      · have hns : ¬(st ≤ pub ∧ pub ≤ en) := by omega
        simp [hlt, hns]
      · by_cases hen : pub ≤ en
        · have hin : st ≤ pub ∧ pub ≤ en := by omega
          simp [hlt, hen, hin]
        · have hns : ¬(st ≤ pub ∧ pub ≤ en) := by omega
          simp [hlt, hen, hns]

/-- Witness for `date_filter_window` on a concrete candidate list
containing an in-window paper, papers on both sides of the window, an
unparseable date, and a missing date. -/
theorem date_filter_window_witness :
    filterByDate
      [⟨"p1", "t1", "", some "2023-06-15"⟩, ⟨"p2", "t2", "", some "2022-12-31"⟩,
        ⟨"p3", "t3", "", some "2024-01-01"⟩, ⟨"p4", "t4", "", some "garbage"⟩,
        ⟨"p5", "t5", "", none⟩]
      (some "2023-01-01") (some "2023-12-31") =
      [⟨"p1", "t1", "", some "2023-06-15"⟩, ⟨"p4", "t4", "", some "garbage"⟩] := by
  rw [date_filter_window _ "2023-01-01" "2023-12-31" 20230101 20231231
    (by decide) (by decide)]
  decide

theorem addRanks_length (i : ℕ) (l : List ScoredPaper) :
    (addRanks i l).length = l.length := by
  induction l generalizing i with
  | nil => rfl
  | cons p ps ih => simp [addRanks, ih]

theorem addRanks_map_rank (i : ℕ) (l : List ScoredPaper) :
    (addRanks i l).map (fun r => r.sota_rank) = List.range' (i + 1) l.length := by
  induction l generalizing i with
  | nil => rfl
  | cons p ps ih => simp [addRanks, ih, List.range'_succ]

theorem addRanks_mem (i : ℕ) (l : List ScoredPaper) (q : RankedPaper)
    (hq : q ∈ addRanks i l) : q.toScoredPaper ∈ l := by
  induction l generalizing i with
  | nil => simp [addRanks] at hq
  | cons p ps ih =>
    simp only [addRanks, List.mem_cons] at hq ⊢
    rcases hq with h | h
    · left
      rw [h]
    · right
      exact ih _ h

theorem addRanks_pairwise (R : ScoredPaper → ScoredPaper → Prop) (i : ℕ)
    (l : List ScoredPaper) (h : l.Pairwise R) :
    (addRanks i l).Pairwise (fun a b => R a.toScoredPaper b.toScoredPaper) := by
  induction l generalizing i with
  | nil => exact List.Pairwise.nil
  | cons p ps ih =>
    rw [List.pairwise_cons] at h
    simp only [addRanks, List.pairwise_cons]
    exact ⟨fun q hq => h.1 _ (addRanks_mem _ _ _ hq), ih _ h.2⟩

/-- Stability of a stable sort, as a filter identity: if all elements
satisfying `q` are mutually tied under `le`, sorting does not reorder
them. -/
theorem mergeSort_filter_stable {α : Type _} (le : α → α → Bool)
    (htrans : ∀ a b c, le a b → le b c → le a c)
    (htotal : ∀ a b, le a b || le b a)
    (l : List α) (q : α → Bool)
    (hq : ∀ a b, q a → q b → le a b) :
    (l.mergeSort le).filter q = l.filter q := by
  have hpw : (l.filter q).Pairwise (fun a b => le a b) :=
    List.pairwise_of_forall_mem_list
      (fun a ha b hb => hq a b (List.of_mem_filter ha) (List.of_mem_filter hb))
  have hsub2 : List.Sublist (l.filter q) (l.mergeSort le) :=
    List.sublist_mergeSort htrans htotal hpw (List.filter_sublist l)
  have hff : (l.filter q).filter q = l.filter q :=
    List.filter_eq_self.mpr (fun a ha => List.of_mem_filter ha)
  have hsub3 : List.Sublist (l.filter q) ((l.mergeSort le).filter q) :=
    hff ▸ hsub2.filter q
  have hperm : List.Perm ((l.mergeSort le).filter q) (l.filter q) :=
    (List.mergeSort_perm l le).filter q
  exact (hsub3.eq_of_length hperm.length_eq.symm).symm

theorem scoreDescLe_trans (a b c : ScoredPaper) (hab : scoreDescLe a b)
    (hbc : scoreDescLe b c) : scoreDescLe a c := by
  simp only [scoreDescLe, decide_eq_true_eq] at *
  exact le_trans hbc hab

theorem scoreDescLe_total (a b : ScoredPaper) :
    scoreDescLe a b || scoreDescLe b a := by
  simp only [scoreDescLe, Bool.or_eq_true, decide_eq_true_eq]
  exact le_total _ _

/-- C3: the final ranking returns at most `top_k` papers, assigns exactly
the dense 1-based rank sequence `1..len`, the stored final scores are
non-increasing along the returned sequence, and the sort is stable: for
every score value, the papers carrying that score appear in the same order
as in the scored input (which itself preserves candidate order). -/
theorem final_ranking_properties (papers : List Candidate) (topK : ℕ) :
    (computeFinalRanking papers topK).length ≤ topK ∧
    (computeFinalRanking papers topK).map (fun r => r.sota_rank) =
      List.range' 1 (computeFinalRanking papers topK).length ∧
    (computeFinalRanking papers topK).Pairwise
      (fun a b => b.final_score ≤ a.final_score) ∧
    ∀ s : ℚ,
      (sortScored (papers.map buildScored)).filter (fun p => p.final_score = s) =
        (papers.map buildScored).filter (fun p => p.final_score = s) := by
  refine ⟨?_, ?_, ?_, ?_⟩
  · rw [computeFinalRanking, addRanks_length]
    exact List.length_take_le _ _
  · rw [computeFinalRanking, addRanks_map_rank, addRanks_length]
  · rw [computeFinalRanking]
    have hsorted : (sortScored (papers.map buildScored)).Pairwise
        (fun a b => scoreDescLe a b) :=
      List.sorted_mergeSort scoreDescLe_trans scoreDescLe_total _
    have htake : ((sortScored (papers.map buildScored)).take topK).Pairwise
        (fun a b => b.final_score ≤ a.final_score) := by
      refine List.Pairwise.imp ?_
        (List.Pairwise.sublist (List.take_sublist topK _) hsorted)
      intro a b h
      simpa [scoreDescLe] using h
    exact addRanks_pairwise _ 0 _ htake
  · intro s
    show ((papers.map buildScored).mergeSort scoreDescLe).filter _ = _
    apply mergeSort_filter_stable scoreDescLe scoreDescLe_trans scoreDescLe_total
    intro a b ha hb
    simp only [decide_eq_true_eq] at ha hb
    simp [scoreDescLe, ha, hb]

/-- C4 counterexample: the claim says a failed generation-service call is
fatal to every pipeline invocation, with the error propagated and no
partial results.  But `SemanticEngine._score_papers` wraps the LLM call in
`try/except` and recovers with the deterministic keyword fallback: with a
non-empty API key and a transport error on the (single) generation call,
scoring returns `ok` with keyword-scored papers — not the error. -/
theorem generation_error_not_fatal_counterexample :
    scorePapersM (fun _ _ => .error ⟨"transport failure"⟩)
        ⟨fun _ => none, fun _ => none, fun _ => none, fun _ => none, fun _ => none⟩
        "key" ""
        [⟨none, none, some "T", some "A", [], none, [], none, none, none, none,
          none, none⟩] 0 =
      (.ok [⟨none, none, some "T", some "A", [], none, [], none, none, some 0.5,
        none, none, none⟩], 1) ∧
    (Except.ok [(⟨none, none, some "T", some "A", [], none, [], none, none,
        some 0.5, none, none, none⟩ : Candidate)] :
      Except GenError (List Candidate)) ≠ Except.error ⟨"transport failure"⟩ := by
  constructor
  · rfl
  · intro h
    exact Except.noConfusion h

/-- C4 amended: no stage retries a failed generation call.  In the
two-document synthesis pipeline a generation failure is fatal to the whole
invocation: with a failing generation service, `process` makes exactly one
generation call and propagates that error as its result, surfacing no
partial results.  (In the SOTA pipeline, by contrast, the relevance scorer
and the explanation generator catch generation failures and substitute
deterministic fallbacks — see the counterexample.) -/
theorem generation_error_fatal_synthesis (e : GenError) (jl : JsonLoaders)
    (tA tB : String) (n : ℕ) :
    process (fun _ _ => .error e) jl tA tB n = (.error e, n + 1) := rfl

/-- C10: when the bibliographic search returns no candidates,
`identify_sota` returns the complete empty result (input topic,
`total_found = 0`, the requested `top_k`, empty `sota_papers`) and performs
only the search call: no ranking, no enrichment, no final ranking, no
explanation generation. -/
theorem empty_search_early_return (svc : SotaSvc) (topic : String)
    (maxResults topK : ℕ) (sd ed : Option String) (im : Bool)
    (h : svc.search topic sd ed maxResults = []) :
    identifySota svc topic maxResults topK sd ed im =
      ({ topic := topic, total_found := 0, top_k := topK, sota_papers := [],
         search_params := ⟨maxResults, sd, ed⟩ }, [SvcCall.arxivSearch]) := by
  simp [identifySota, h]

/-- Witness for `empty_search_early_return` with a concrete service whose
search yields nothing. -/
theorem empty_search_early_return_witness :
    identifySota ⟨fun _ _ _ _ => [], fun _ ps _ => ps, id, fun _ _ => ""⟩
        "transformers" 20 2 none none true =
      ({ topic := "transformers", total_found := 0, top_k := 2,
         sota_papers := [], search_params := ⟨20, none, none⟩ },
        [SvcCall.arxivSearch]) :=
  empty_search_early_return _ "transformers" 20 2 none none true rfl

end SotaPipeline
